import Mathlib

/-!
Shallow embedding of `src/Chatbot.py`, a command-line catalog search tool
over music-production tool records, together with theorems settling the
specification claims about its loader, filter engine and paginator.

Python strings are modelled by `String`, Python lists by `List`, Python
`int` by `Int` (Python integers are unbounded), and a function that can
raise an uncaught exception by `Except String`. The Python string
primitives used by the program (`strip`, `split`, `lower`, `in`, `int()`)
are given structurally recursive models over `List Char` so that every
definition evaluates inside the kernel.
-/

/-- One tool record: the dictionary built by `load_database`
(`{'name', 'type', 'developer', 'price', 'tags'}`). -/
structure Tool where
  name : String
  type : String
  developer : String
  price : Int
  tags : List String
deriving DecidableEq, Repr

/-- Python's `str.strip()`: remove leading and trailing whitespace. -/
def pyStrip (s : String) : String :=
  (((s.toList.dropWhile Char.isWhitespace).reverse.dropWhile
      Char.isWhitespace).reverse).asString

/-- Split a character list at every character satisfying `p`, keeping empty
pieces: the skeleton shared by Python's `str.split(sep)` (with
`p := (· == sep)`) and `str.split()` (with `p := Char.isWhitespace`, empties
then filtered out). -/
def splitOnP (p : Char → Bool) : List Char → List (List Char)
  | [] => [[]]
  | c :: rest =>
    match splitOnP p rest with
    | [] => [[]]
    | w :: ws => if p c then [] :: w :: ws else (c :: w) :: ws

/-- Python's `s.split(sep)` for a one-character separator: empty pieces are
kept, and the empty string yields `[""]`. -/
def pySplitSep (sep : Char) (s : String) : List String :=
  (splitOnP (fun c => c == sep) s.toList).map List.asString

/-- Python's `s.split()` with no argument: split on whitespace runs and
drop empty pieces. -/
def pySplitWs (s : String) : List String :=
  ((splitOnP Char.isWhitespace s.toList).filter (fun w => !w.isEmpty)).map
    List.asString

/-- Python's `str.lower()` (ASCII letters; no claim involves non-ASCII
case folding). -/
def pyLower (s : String) : String :=
  (s.toList.map Char.toLower).asString

/-- Substring test on character lists: `containsSub needle hay` is true when
`needle` occurs contiguously in `hay` (the empty needle occurs everywhere,
as in Python). -/
def containsSub (needle : List Char) : List Char → Bool
  | [] => needle.isEmpty
  | c :: rest => needle.isPrefixOf (c :: rest) || containsSub needle rest

/-- Python's string containment operator `needle in hay`. -/
def pyIn (needle hay : String) : Bool :=
  containsSub needle.toList hay.toList

/-- Value of a nonempty all-digit character list, base 10. -/
def digitsToNat (l : List Char) : Option Nat :=
  if l.isEmpty || !l.all Char.isDigit then none
  else some (l.foldl (fun acc c => acc * 10 + (c.toNat - 48)) 0)

/-- Python's `int(s)` on a string: optional surrounding whitespace, optional
sign, then base-10 digits; `none` models the `ValueError` raised otherwise.
(Underscore digit separators and non-ASCII digits are not modelled; no claim
depends on them.) -/
def pyInt (s : String) : Option Int :=
  match (pyStrip s).toList with
  | '-' :: rest => (digitsToNat rest).map (fun n => -(n : Int))
  | '+' :: rest => (digitsToNat rest).map (fun n => (n : Int))
  | l => (digitsToNat l).map (fun n => (n : Int))

/-- Outcome of the loop body of `load_database` on one line of the file:
the line is skipped (blank, or not exactly 5 comma-separated fields),
contributes a record, or raises `ValueError` (5 fields but `int(price)`
fails). -/
inductive LineResult where
  | skip
  | record (t : Tool)
  | valueError
deriving DecidableEq, Repr

/-- The body of the `for line in lines` loop of `load_database`:
`parts = [p.strip() for p in line.strip().split(',')]`; a record is built
only when `len(parts) == 5`, with tags split on `;` and individually
stripped, and `int(price)` is evaluated with no surrounding handler. -/
def processLine (line : String) : LineResult :=
  if (pyStrip line).toList.isEmpty then .skip
  else
    match (pySplitSep ',' (pyStrip line)).map pyStrip with
    | [name, tool_type, developer, price, tags_str] =>
      match pyInt price with
      | some p =>
        .record { name := name, type := tool_type, developer := developer,
                  price := p,
                  tags := (pySplitSep ';' tags_str).map pyStrip }
      | none => .valueError
    | _ => .skip

/-- `load_database`, applied to the lines read from the file. The Python
function returns the accumulated list; an uncaught `ValueError` from
`int(price)` aborts it, modelled by `Except.error`. (The
`FileNotFoundError` branch, which returns `[]`, is outside the claims.) -/
def load_database : List String → Except String (List Tool)
  | [] => .ok []
  | line :: rest =>
    match processLine line with
    | .skip => load_database rest
    | .valueError => .error "ValueError"
    | .record t => (load_database rest).map (fun db => t :: db)

/-- Page size of `display_paginated_results` (`page_size = 2`). -/
def page_size : Nat := 2

/-- `total_pages = math.ceil(len(results) / page_size)` of
`display_paginated_results`; for non-negative integers
`math.ceil(n / m) = (n + m - 1) / m` in integer division. -/
def total_pages (n : Nat) : Nat :=
  (n + page_size - 1) / page_size

/-- The records shown for `current_page` by `display_paginated_results`:
`start_index = (current_page - 1) * page_size` and the slice
`results[start_index : start_index + page_size]`. -/
def page_items (results : List Tool) (current_page : Nat) : List Tool :=
  (results.drop ((current_page - 1) * page_size)).take page_size

/-- The lowercase searchable text block of `smart_search`:
`f"{name} {type} {developer} {' '.join(tags)}".lower()`. -/
def search_text (tool : Tool) : String :=
  pyLower (tool.name ++ " " ++ tool.type ++ " " ++ tool.developer ++ " " ++
    String.intercalate " " tool.tags)

/-- The result list computed by one iteration of `smart_search` for a query:
`query_words = set(user_query.lower().split())`; the special tokens `free` /
`paid` are detected and removed; a tool is skipped when
`is_free_search and price != 0` or `is_paid_search and price == 0`, and kept
when all remaining words occur in its `search_text`. The Python `set` is
modelled by the token list, every use of it (membership, removal, `all`)
being insensitive to order and multiplicity. -/
def smart_search (db : List Tool) (user_query : String) : List Tool :=
  let query_words := pySplitWs (pyLower user_query)
  let is_free_search := query_words.contains "free"
  let is_paid_search := query_words.contains "paid"
  let query_words :=
    if is_free_search then query_words.filter (fun w => w != "free") else query_words
  let query_words :=
    if is_paid_search then query_words.filter (fun w => w != "paid") else query_words
  db.filter (fun tool =>
    !(is_free_search && tool.price != 0) &&
    (!(is_paid_search && tool.price == 0) &&
      query_words.all (fun word => pyIn word (search_text tool))))

/-- The result list of one iteration of `search_by_type`:
`search_term = input(...).lower()` and
`[tool for tool in db if search_term in tool['type'].lower()]`. -/
def search_by_type (db : List Tool) (search_term : String) : List Tool :=
  db.filter (fun tool => pyIn (pyLower search_term) (pyLower tool.type))

/-- The result list of `find_free_plugins`:
`[tool for tool in db if tool['price'] == 0]`. -/
def find_free_plugins (db : List Tool) : List Tool :=
  db.filter (fun tool => tool.price == 0)

/-- The result list of one iteration of `find_by_tag`:
`search_term = input(...).lower()`; the query `paid` is special-cased to
`tool['price'] > 0`, any other query keeps the tools with
`any(search_term in tag for tag in tool['tags'])`. The two accumulation
loops of the source append in catalog order, i.e. they filter. -/
def find_by_tag (db : List Tool) (search_term : String) : List Tool :=
  if pyLower search_term = "paid" then
    db.filter (fun tool => tool.price > 0)
  else
    db.filter (fun tool =>
      tool.tags.any (fun tag => pyIn (pyLower search_term) tag))

/-- Sample records used by concrete witnesses and counterexamples below. -/
def freeTool : Tool :=
  { name := "ReverbX", type := "Reverb", developer := "DevA", price := 0,
    tags := ["reverb", "ambient"] }

def paidTool : Tool :=
  { name := "ReverbPro", type := "Reverb", developer := "DevB", price := 99,
    tags := ["reverb"] }

def negTool : Tool :=
  { name := "Oddity", type := "Synth", developer := "DevC", price := -3,
    tags := ["vintage"] }

def vintageTool : Tool :=
  { name := "TapeMachine", type := "Saturation", developer := "DevD", price := 49,
    tags := ["Vintage", "Tape"] }

/-- Helper: a non-5-field line (blank lines included, since a blank line
strips to `""` whose split has one field) is skipped by the loop body. -/
theorem processLine_skip_of_not5 (line : String)
    (h : (pySplitSep ',' (pyStrip line)).length ≠ 5) :
    processLine line = LineResult.skip := by
  have h' : ((pySplitSep ',' (pyStrip line)).map pyStrip).length ≠ 5 := by
    simpa using h
  unfold processLine
  split
  · rfl
  · generalize ((pySplitSep ',' (pyStrip line)).map pyStrip) = l at h'
    rcases l with _ | ⟨a, _ | ⟨b, _ | ⟨c, _ | ⟨d, _ | ⟨e, _ | ⟨f, l⟩⟩⟩⟩⟩⟩ <;>
      first
        | rfl
        | exact absurd rfl h'

/-- C1 counterexample: the claim also promises no error for a 5-field line
whose `Price` does not parse, but there `int(price)` is evaluated outside
any handler, so `load_database` raises `ValueError` instead of skipping. -/
theorem load_database_raises_on_bad_price :
    load_database ["Foo,Synth,Dev,abc,tag1;tag2"] = Except.error "ValueError" := by
  rfl

/-- Helper: every line that strips and splits into exactly 5 fields whose
`Price` field does not parse as an integer makes the loop body raise
`ValueError` (the 5-field shape forces the line to be non-blank, and
`int(price)` fails). -/
theorem processLine_bad_price (line : String)
    (name tool_type developer price tags_str : String)
    (hsplit : (pySplitSep ',' (pyStrip line)).map pyStrip =
      [name, tool_type, developer, price, tags_str])
    (hbad : pyInt price = none) :
    processLine line = LineResult.valueError := by
  have hne : (pyStrip line).toList.isEmpty = false := by
    cases hE : (pyStrip line).toList.isEmpty
    · rfl
    · exfalso
      have hnil : (pyStrip line).toList = [] := by
        simpa using hE
      have hone : (pySplitSep ',' (pyStrip line)).map pyStrip = [pyStrip ""] := by
        unfold pySplitSep
        rw [hnil]
        rfl
      rw [hone] at hsplit
      have hlen := congrArg List.length hsplit
      simp at hlen
  unfold processLine
  rw [hne]
  simp only [Bool.false_eq_true, if_false]
  rw [hsplit]
  simp [hbad]

/-- C1 (amended): every input line that does not split into exactly 5
comma-separated fields is excluded from the catalog with no error raised;
every line with exactly 5 fields whose `Price` field does not parse as an
integer instead makes `load_database` raise `ValueError`. -/
theorem load_database_malformed_lines :
    (∀ line rest, (pySplitSep ',' (pyStrip line)).length ≠ 5 →
        load_database (line :: rest) = load_database rest) ∧
    (∀ line rest name tool_type developer price tags_str,
        (pySplitSep ',' (pyStrip line)).map pyStrip =
          [name, tool_type, developer, price, tags_str] →
        pyInt price = none →
        load_database (line :: rest) = Except.error "ValueError") := by
  constructor
  · intro line rest h
    rw [load_database, processLine_skip_of_not5 line h]
  · intro line rest name tool_type developer price tags_str hsplit hbad
    rw [load_database,
      processLine_bad_price line name tool_type developer price tags_str hsplit hbad]

/-- Witness for C1: a concrete 4-field line is dropped without error, and a
concrete 5-field line with a non-integer `Price` raises `ValueError`. -/
theorem load_database_malformed_lines_witness :
    load_database ["only,four,fields,here", "A,B,C,7,t"] =
        load_database ["A,B,C,7,t"] ∧
    load_database ["Baz,EQ,Dev,gratis,clean", "A,B,C,7,t"] =
        Except.error "ValueError" :=
  ⟨load_database_malformed_lines.1 "only,four,fields,here" ["A,B,C,7,t"]
      (by decide),
   load_database_malformed_lines.2 "Baz,EQ,Dev,gratis,clean" ["A,B,C,7,t"]
      "Baz" "EQ" "Dev" "gratis" "clean" (by rfl) (by rfl)⟩

/-- C4 counterexample: `load_database` performs no sign check, so a line
with a negative `Price` yields a record with a negative price. -/
theorem load_database_negative_price :
    load_database ["Oddity,Synth,DevC,-3,vintage"] = Except.ok [negTool] ∧
      negTool.price < 0 := by
  exact ⟨by rfl, by decide⟩

/-- C4 (amended): every record of a successfully returned catalog comes
from some input line accepted by the loop body (5 comma-separated fields
with `int(price)` succeeding); its price is the integer parsed from that
line's `Price` field, which may be negative, as no non-negativity check
is performed. -/
theorem load_database_records_from_lines (lines : List String) (db : List Tool)
    (t : Tool) (hok : load_database lines = Except.ok db) (ht : t ∈ db) :
    ∃ line ∈ lines, processLine line = LineResult.record t := by
  induction lines generalizing db with
  | nil =>
    rw [load_database] at hok
    cases hok
    simp at ht
  | cons line rest ih =>
    rw [load_database] at hok
    cases hp : processLine line with
    | skip =>
      rw [hp] at hok
      obtain ⟨l, hl, he⟩ := ih db hok ht
      exact ⟨l, List.mem_cons_of_mem _ hl, he⟩
    | valueError =>
      rw [hp] at hok
      cases hok
    | record t' =>
      rw [hp] at hok
      cases hr : load_database rest with
      | error e => rw [hr] at hok; simp [Except.map] at hok
      | ok db' =>
        rw [hr] at hok
        simp only [Except.map] at hok
        cases hok
        rcases List.mem_cons.mp ht with h1 | h2
        · exact ⟨line, List.mem_cons_self _ _, by rw [hp, h1]⟩
        · obtain ⟨l, hl, he⟩ := ih db' hr h2
          exact ⟨l, List.mem_cons_of_mem _ hl, he⟩

/-- Witness for C4: the record loaded from a concrete negative-price line
traces back to that line. -/
theorem load_database_records_from_lines_witness :
    ∃ line ∈ ["A,B,C,-7,t"], processLine line = LineResult.record
      { name := "A", type := "B", developer := "C", price := -7, tags := ["t"] } :=
  load_database_records_from_lines ["A,B,C,-7,t"]
    [{ name := "A", type := "B", developer := "C", price := -7, tags := ["t"] }]
    _ (by rfl) (by decide)

/-- C2 counterexample: `find_by_tag` lowercases the query but matches it
against the tags exactly as stored. A record whose tag is `"Vintage"` is
not returned for the query `"vintage"`, although the case-folded query is
a substring of the case-folded tag, so matching is not case-insensitive
in the record's tags. -/
theorem find_by_tag_case_counterexample :
    "Vintage" ∈ vintageTool.tags ∧
    pyIn (pyLower "vintage") (pyLower "Vintage") = true ∧
    find_by_tag [vintageTool] "vintage" = [] := by
  refine ⟨by decide, by rfl, by rfl⟩

/-- C2 (amended): for any query other than `"paid"` (after lowercasing),
a record is returned by the tag filter exactly when the lowercased query
appears as a substring of some tag of the record as stored — the tags are
not case-folded at match time, so matching is case-sensitive with respect
to the letter case stored in the record's tags. -/
theorem find_by_tag_substring_match (db : List Tool) (q : String)
    (h : pyLower q ≠ "paid") (t : Tool) :
    t ∈ find_by_tag db q ↔
      t ∈ db ∧ ∃ tag ∈ t.tags, pyIn (pyLower q) tag = true := by
  unfold find_by_tag
  rw [if_neg h]
  simp [List.mem_filter, List.any_eq_true]

/-- Witness for C2: the amended equivalence evaluated at a concrete
record and query. -/
theorem find_by_tag_substring_match_witness :
    freeTool ∈ find_by_tag [freeTool] "verb" ↔
      freeTool ∈ [freeTool] ∧ ∃ tag ∈ freeTool.tags, pyIn (pyLower "verb") tag = true :=
  find_by_tag_substring_match [freeTool] "verb" (by decide) freeTool

/-- C6: the tag filter with a query that lowercases to `"paid"` takes the
special-case branch, returning exactly the records with `price > 0` as a
subsequence of the catalog (catalog order); the substring branch over the
tags is not taken. -/
theorem find_by_tag_paid (db : List Tool) (q : String) (h : pyLower q = "paid") :
    (∀ t, t ∈ find_by_tag db q ↔ t ∈ db ∧ t.price > 0) ∧
    List.Sublist (find_by_tag db q) db := by
  unfold find_by_tag
  rw [if_pos h]
  constructor
  · intro t
    simp [List.mem_filter]
  · exact List.filter_sublist db

/-- Witness for C6: the uppercase query `"PAID"` on a concrete catalog. -/
theorem find_by_tag_paid_witness :
    paidTool ∈ find_by_tag [freeTool, paidTool] "PAID" ↔
      paidTool ∈ [freeTool, paidTool] ∧ paidTool.price > 0 :=
  (find_by_tag_paid [freeTool, paidTool] "PAID" (by rfl)).1 paidTool

/-- Helper: membership characterization of `smart_search`. A tool is kept
exactly when it passes both special-token price conditions of the code
(`free` forces `price == 0`, `paid` forces `price != 0`) and every
non-special token occurs in its `search_text`. -/
theorem mem_smart_search (db : List Tool) (q : String) (t : Tool) :
    t ∈ smart_search db q ↔
      t ∈ db ∧
      ("free" ∈ pySplitWs (pyLower q) → t.price = 0) ∧
      ("paid" ∈ pySplitWs (pyLower q) → t.price ≠ 0) ∧
      (∀ w ∈ pySplitWs (pyLower q), w ≠ "free" → w ≠ "paid" →
        pyIn w (search_text t) = true) := by
  unfold smart_search
  by_cases hf : "free" ∈ pySplitWs (pyLower q) <;>
    by_cases hp : "paid" ∈ pySplitWs (pyLower q) <;>
      simp [List.mem_filter, List.all_eq_true, hf, hp, List.elem_eq_mem]
  · intro _ h2 h3
    exact absurd h2 h3
  · intro _ _
    constructor
    · intro h w hw h1 _
      rcases h w hw with h3 | h3
      · exact absurd h3 h1
      · exact h3
    · intro h x hx
      by_cases hxs : x = "free"
      · exact Or.inl hxs
      · exact Or.inr (h x hx hxs (fun e => hp (e ▸ hx)))
  · intro _ _
    constructor
    · intro h w hw _ h2
      rcases h w hw with h3 | h3
      · exact absurd h3 h2
      · exact h3
    · intro h x hx
      by_cases hxs : x = "paid"
      · exact Or.inl hxs
      · exact Or.inr (h x hx (fun e => hf (e ▸ hx)) hxs)
  · intro _
    constructor
    · intro h w hw _ _
      exact h w hw
    · intro h x hx
      exact h x hx (fun e => hf (e ▸ hx)) (fun e => hp (e ▸ hx))

/-- C3 counterexample: in `smart_search` the `paid` token only skips tools
with `price == 0`, so a tool with a negative price is returned for the
query `"paid"` although its price is not `> 0`. -/
theorem smart_search_paid_counterexample :
    smart_search [negTool] "paid" = [negTool] ∧ ¬(negTool.price > 0) :=
  ⟨by rfl, by decide⟩

/-- C3 (amended): a record is returned by `smart_search` exactly when it
satisfies the price requirements — `free` requiring `price = 0` and `paid`
requiring `price ≠ 0` (not `price > 0`) — and every remaining token is a
substring of the lowercase blob `name + " " + type + " " + developer +
" " + join(tags, " ")`. -/
theorem smart_search_tokens_spec (db : List Tool) (q : String) (t : Tool) :
    t ∈ smart_search db q ↔
      t ∈ db ∧
      ("free" ∈ pySplitWs (pyLower q) → t.price = 0) ∧
      ("paid" ∈ pySplitWs (pyLower q) → t.price ≠ 0) ∧
      (∀ w ∈ pySplitWs (pyLower q), w ≠ "free" → w ≠ "paid" →
        pyIn w (search_text t) = true) :=
  mem_smart_search db q t

/-- C7: a smart-search query containing both `free` and `paid` yields no
matches, since the two skip conditions `price != 0` and `price == 0`
together reject every record. -/
theorem smart_search_contradictory_tokens (db : List Tool) (q : String)
    (h1 : "free" ∈ pySplitWs (pyLower q)) (h2 : "paid" ∈ pySplitWs (pyLower q)) :
    smart_search db q = [] := by
  cases he : smart_search db q with
  | nil => rfl
  | cons t rest =>
    have ht : t ∈ smart_search db q := by
      rw [he]
      exact List.mem_cons_self _ _
    have hc := (mem_smart_search db q t).mp ht
    exact absurd (hc.2.1 h1) (hc.2.2.1 h2)

/-- Witness for C7: a concrete query with both tokens on a concrete
catalog returns the empty list. -/
theorem smart_search_contradictory_tokens_witness :
    smart_search [freeTool, paidTool] "free paid" = [] :=
  smart_search_contradictory_tokens [freeTool, paidTool] "free paid"
    (by decide) (by decide)

/-- Helper: `contains` only depends on the membership of the token list. -/
theorem contains_congr_of_mem_iff {l1 l2 : List String}
    (h : ∀ w, w ∈ l1 ↔ w ∈ l2) (a : String) : l1.contains a = l2.contains a := by
  simp only [List.contains, List.elem_eq_mem]
  rw [decide_eq_decide]
  exact h a

/-- Helper: `all` only depends on the membership of the token list. -/
theorem all_congr_of_mem_iff {l1 l2 : List String}
    (h : ∀ w, w ∈ l1 ↔ w ∈ l2) (p : String → Bool) : l1.all p = l2.all p := by
  rw [Bool.eq_iff_iff, List.all_eq_true, List.all_eq_true]
  constructor
  · intro ha w hw
    exact ha w ((h w).mpr hw)
  · intro ha w hw
    exact ha w ((h w).mp hw)

/-- C8: smart search is commutative over token order and repetition — two
queries whose whitespace tokenizations have the same members produce the
same result list, because the token set is only used through membership. -/
theorem smart_search_token_order (db : List Tool) (q1 q2 : String)
    (h : ∀ w, w ∈ pySplitWs (pyLower q1) ↔ w ∈ pySplitWs (pyLower q2)) :
    smart_search db q1 = smart_search db q2 := by
  have hf := contains_congr_of_mem_iff h "free"
  have hp := contains_congr_of_mem_iff h "paid"
  simp only [smart_search, hf, hp]
  apply List.filter_congr
  intro t _
  congr 1
  congr 1
  apply all_congr_of_mem_iff
  intro w
  cases hcf : (pySplitWs (pyLower q2)).contains "free" <;>
    cases hcp : (pySplitWs (pyLower q2)).contains "paid" <;>
      simp [hcf, hcp, List.mem_filter, h w]

/-- Witness for C8: the queries `"reverb free"` and `"free reverb"` give
the same result list on a concrete catalog. -/
theorem smart_search_token_order_witness :
    smart_search [freeTool, paidTool] "reverb free" =
      smart_search [freeTool, paidTool] "free reverb" :=
  smart_search_token_order [freeTool, paidTool] "reverb free" "free reverb"
    (by
      intro w
      have e1 : pySplitWs (pyLower "reverb free") = ["reverb", "free"] := rfl
      have e2 : pySplitWs (pyLower "free reverb") = ["free", "reverb"] := rfl
      rw [e1, e2]
      simp [List.mem_cons]
      tauto)

/-- C9: each of the four filter modes returns a subsequence of the catalog
(every result list preserves catalog insertion order, with no sort). -/
theorem filters_preserve_catalog_order (db : List Tool) (q : String) :
    List.Sublist (search_by_type db q) db ∧
    List.Sublist (find_free_plugins db) db ∧
    List.Sublist (find_by_tag db q) db ∧
    List.Sublist (smart_search db q) db := by
  refine ⟨List.filter_sublist db, List.filter_sublist db, ?_, ?_⟩
  · unfold find_by_tag
    split <;> exact List.filter_sublist db
  · unfold smart_search
    exact List.filter_sublist db

/-- C10: the smart-search query `"free"` leaves no keyword to match (the
AND over remaining tokens is vacuously true), so it returns exactly the
`price == 0` filter of the catalog, in order — the result list of
`find_free_plugins`. -/
theorem smart_search_free_equals_find_free_plugins (db : List Tool) :
    smart_search db "free" = find_free_plugins db := by
  have e1 : pySplitWs (pyLower "free") = ["free"] := rfl
  simp only [smart_search, find_free_plugins, e1]
  apply List.filter_congr
  intro t _
  simp [bne]

/-- C5: for a result list of size `n`, `total_pages` is the least number of
pages of size `page_size = 2` covering the list (that is, `ceil(n / 2)`),
and for every page number `k` in `[1, total_pages]` the displayed page is
exactly the slice of the results at indices
`[(k-1)*page_size, (k-1)*page_size + page_size)` clipped to `n`, in order. -/
theorem display_paginated_results_pages (results : List Tool) (k : Nat)
    (hk1 : 1 ≤ k) (hk2 : k ≤ total_pages results.length) :
    (results.length ≤ page_size * total_pages results.length ∧
      ∀ m, results.length ≤ page_size * m → total_pages results.length ≤ m) ∧
    (page_items results k).length =
      min page_size (results.length - (k - 1) * page_size) ∧
    ∀ j, j < (page_items results k).length →
      (page_items results k)[j]? = results[(k - 1) * page_size + j]? := by
  refine ⟨⟨?_, ?_⟩, ?_, ?_⟩
  · unfold total_pages page_size
    omega
  · intro m hm
    unfold total_pages page_size at *
    omega
  · simp [page_items, List.length_take, List.length_drop]
  · intro j hj
    have hj2 : j < page_size := by
      have := hj
      simp [page_items, List.length_take, List.length_drop] at this
      omega
    unfold page_items
    rw [List.getElem?_take_of_lt hj2, List.getElem?_drop]

/-- Witness for C5: page 2 of a three-element result list holds the single
record at index 2. -/
theorem display_paginated_results_pages_witness :
    (page_items [freeTool, paidTool, negTool] 2).length =
      min page_size ([freeTool, paidTool, negTool].length - (2 - 1) * page_size) :=
  (display_paginated_results_pages [freeTool, paidTool, negTool] 2
    (by decide) (by decide)).2.1
